import Mathlib

/-!
Verification of the preflight-mcp envelope codec and system tools.

This development shallowly embeds the JavaScript source of the repository:

* `src/utils/envelope.js` — the envelope codec (`ok`, `fail`, `envelope`);
* `tools/system.service.js` — the service functions `systemPing` and
  `systemDateTime`.

JavaScript values are modelled by the inductive tree type `JsVal`
(null, undefined, booleans, integer numbers, strings, arrays, objects in
property-insertion order, and uninterpreted function values).  The ECMAScript
builtins the source calls — `JSON.stringify(x, null, 2)`, string coercion
`String(x)`, object spread — are modelled from their standard semantics on
this fragment.  `new Date().toISOString()` is modelled by passing the
produced timestamp string `ts` as an explicit parameter, and the
`Intl.DateTimeFormat(...).formatToParts` pipeline is modelled by an explicit
formatter argument returning either a part list or a thrown error value.

A second, heap-based model (`GVal`/`GHeap`) appears further down: it gives
meaning to circular object graphs, which tree values cannot express, in
order to settle the no-throw claim about the codec.
-/

namespace Preflight

/-- JavaScript values, as trees: the acyclic fragment of the JS value space
that the envelope codec manipulates.  Objects are association lists in
property-insertion order; `vFun` stands for any function value. -/
inductive JsVal where
  | vNull : JsVal
  | vUndefined : JsVal
  | vBool : Bool → JsVal
  | vNum : Int → JsVal
  | vStr : String → JsVal
  | vArr : List JsVal → JsVal
  | vObj : List (String × JsVal) → JsVal
  | vFun : JsVal
deriving Repr

mutual

/-- Model of the ECMAScript `String(x)` coercion on the embedded fragment
(`Array.prototype.toString` joins with commas, eliding null/undefined;
plain objects print as `[object Object]`). -/
def jsToString : JsVal → String
  | .vNull => "null"
  | .vUndefined => "undefined"
  | .vBool b => if b then "true" else "false"
  | .vNum n => toString n
  | .vStr s => s
  | .vArr xs => String.intercalate "," (jsToStringItems xs)
  | .vObj _ => "[object Object]"
  | .vFun => "function () \x7b\x7d"

/-- Elementwise `String(x)` coercion used by `Array.prototype.toString`. -/
def jsToStringItems : List JsVal → List String
  | [] => []
  | .vNull :: rest => "" :: jsToStringItems rest
  | .vUndefined :: rest => "" :: jsToStringItems rest
  | v :: rest => jsToString v :: jsToStringItems rest

end

/-- Lower-case hexadecimal digit, for `\u00XX` escapes. -/
def hexDigit (n : Nat) : Char :=
  if n < 10 then Char.ofNat (48 + n) else Char.ofNat (87 + n)

/-- Escape of a single character inside a JSON string literal, following
ECMAScript `QuoteJSONString`. -/
def escapeChar (c : Char) : String :=
  if c = '\"' then "\\\""
  else if c = '\\' then "\\\\"
  else if c = '\n' then "\\n"
  else if c = '\r' then "\\r"
  else if c = '\t' then "\\t"
  else if c = '\x08' then "\\b"
  else if c = '\x0c' then "\\f"
  else if c.toNat < 32 then
    "\\u00" ++ String.singleton (hexDigit (c.toNat / 16)) ++
      String.singleton (hexDigit (c.toNat % 16))
  else String.singleton c

/-- JSON string literal for `s`, quotes included. -/
def jsonQuote (s : String) : String :=
  "\"" ++ String.join (s.data.map escapeChar) ++ "\""

mutual

/-- Model of `JSON.stringify(v, null, 2)` (the call the envelope codec makes)
restricted to the embedded fragment, following the ECMAScript serialization
algorithm with gap two spaces.  `ind` is the accumulated indentation
(the ECMAScript `stepback`); `none` is the `undefined` result returned for
function values and `undefined`. -/
def strVal (ind : String) : JsVal → Option String
  | .vNull => some "null"
  | .vUndefined => none
  | .vFun => none
  | .vBool b => some (if b then "true" else "false")
  | .vNum n => some (toString n)
  | .vStr s => some (jsonQuote s)
  | .vArr xs =>
      let items := strItems (ind ++ "  ") xs
      some (if items.isEmpty then "[]"
        else "[\n" ++ ind ++ "  " ++
          String.intercalate (",\n" ++ ind ++ "  ") items ++ "\n" ++ ind ++ "]")
  | .vObj fs =>
      let mems := strFields (ind ++ "  ") fs
      some (if mems.isEmpty then "\x7b\x7d"
        else "\x7b\n" ++ ind ++ "  " ++
          String.intercalate (",\n" ++ ind ++ "  ") mems ++ "\n" ++ ind ++ "\x7d")

/-- Array elements: an `undefined` serialization becomes the literal `null`. -/
def strItems (ind : String) : List JsVal → List String
  | [] => []
  | v :: rest => ((strVal ind v).getD "null") :: strItems ind rest

/-- Object members: a property whose value serializes to `undefined`
(function values and `undefined`) is dropped. -/
def strFields (ind : String) : List (String × JsVal) → List String
  | [] => []
  | (k, v) :: rest =>
      match strVal ind v with
      | none => strFields ind rest
      | some s => (jsonQuote k ++ ": " ++ s) :: strFields ind rest

end

/-- Top-level `JSON.stringify(v, null, 2)`. -/
def jsonStringify2 (v : JsVal) : Option String := strVal "" v

/-- A value `JSON.stringify` serializes to `undefined`: `undefined` itself and
function values. -/
def isDroppable : JsVal → Bool
  | .vUndefined => true
  | .vFun => true
  | _ => false

mutual

/-- The JSON-visible part of a value: object properties whose value
`JSON.stringify` would drop are removed, droppable array elements become
`null`.  Serialization cannot distinguish a value from its cleansing. -/
def cleanse : JsVal → JsVal
  | .vObj fs => .vObj (cleanseFields fs)
  | .vArr xs => .vArr (cleanseItems xs)
  | v => v

/-- Cleansing of the property list of an object. -/
def cleanseFields : List (String × JsVal) → List (String × JsVal)
  | [] => []
  | (k, v) :: rest =>
      if isDroppable v then cleanseFields rest
      else (k, cleanse v) :: cleanseFields rest

/-- Cleansing of the element list of an array. -/
def cleanseItems : List JsVal → List JsVal
  | [] => []
  | v :: rest =>
      (if isDroppable v then .vNull else cleanse v) :: cleanseItems rest

end

/-- Assignment of property `k` in the object literal under construction:
an existing property keeps its position and is overwritten, a new one is
appended, as in the ECMAScript object-spread semantics. -/
def setProp (o : List (String × JsVal)) (k : String) (v : JsVal) :
    List (String × JsVal) :=
  if o.any (fun p => p.1 == k) then
    o.map (fun p => if p.1 == k then (k, v) else p)
  else o ++ [(k, v)]

/-- Spread `\x7b ...base, ...m \x7d`: the properties of `m` assigned, in
insertion order, onto `base`. -/
def spreadInto (base : List (String × JsVal)) (m : List (String × JsVal)) :
    List (String × JsVal) :=
  m.foldl (fun acc p => setProp acc p.1 p.2) base

/-- The meta object the codec builds:
`\x7b ts: new Date().toISOString(), ...meta \x7d` (envelope.js line 70), with
the produced timestamp string passed in as `ts`. -/
def mkMeta (ts : String) (meta : List (String × JsVal)) :
    List (String × JsVal) :=
  spreadInto [("ts", .vStr ts)] meta

/-- Property access `env[k]` on an object value. -/
def envField (env : JsVal) (k : String) : Option JsVal :=
  match env with
  | .vObj fs => fs.lookup k
  | _ => none

/-- The argument of `fail`: either an `Error` instance (only its `message`
matters to the codec) or an arbitrary non-`Error` value. -/
inductive ErrArg where
  | errObj : String → ErrArg
  | plain : JsVal → ErrArg

/-- Model of `error instanceof Error ? error.message : String(error)`
(envelope.js lines 33-34). -/
def errToMessage : ErrArg → String
  | .errObj msg => msg
  | .plain v => jsToString v

/-- The normalized envelope object the codec serializes (envelope.js lines
66-73): `\x7b ok, data, meta: \x7b ts: ..., ...meta \x7d, error \x7d`.
`error` is whatever the caller of the internal `envelope` helper supplied —
`ok` supplies nothing, leaving the property `undefined`. -/
def envTree (ts : String) (o : Bool) (data : JsVal)
    (meta : List (String × JsVal)) (error : JsVal) : JsVal :=
  .vObj [("ok", .vBool o), ("data", data),
    ("meta", .vObj (mkMeta ts meta)), ("error", error)]

/-- The value JavaScript gives a property bound to a possibly-undefined
expression result. -/
def textVal : Option String → JsVal
  | some s => .vStr s
  | none => .vUndefined

/-- The MCP tool response the `envelope` helper builds around an envelope
object:
`\x7b content: [\x7b type: "text", text: JSON.stringify(env, null, 2) \x7d] \x7d`. -/
def mcpResponse (env : JsVal) : JsVal :=
  .vObj [("content", .vArr [.vObj [("type", .vStr "text"),
    ("text", textVal (jsonStringify2 env))]])]

/-- The internal `envelope` helper (envelope.js lines 62-78): builds the
normalized envelope object and wraps its serialization into an MCP tool
response. -/
def envelope (ts : String) (o : Bool) (data : JsVal)
    (meta : List (String × JsVal)) (error : JsVal) : JsVal :=
  mcpResponse (envTree ts o data meta error)

/-- The envelope object `ok` passes to `envelope`
(`\x7b ok: true, data, meta \x7d` — the `error` property is absent from the
argument, so it destructures to `undefined`). -/
def okEnvelopeTree (ts : String) (data : JsVal)
    (meta : List (String × JsVal)) : JsVal :=
  envTree ts true data meta .vUndefined

/-- The envelope object `fail` passes to `envelope` (envelope.js lines
30-34). -/
def failEnvelopeTree (ts : String) (error : ErrArg)
    (meta : List (String × JsVal)) : JsVal :=
  envTree ts false .vNull meta (.vStr (errToMessage error))

/-- Success wrapper `ok(data, meta = \x7b\x7d)` (envelope.js line 15).  The
`error` property of the envelope object is left `undefined`. -/
def ok (ts : String) (data : JsVal) (meta : List (String × JsVal)) : JsVal :=
  mcpResponse (okEnvelopeTree ts data meta)

/-- Failure wrapper `fail(error, meta = \x7b\x7d)` (envelope.js lines
29-35). -/
def fail (ts : String) (error : ErrArg) (meta : List (String × JsVal)) :
    JsVal :=
  mcpResponse (failEnvelopeTree ts error meta)

/-- One element of `Intl.DateTimeFormat(...).formatToParts(now)`. -/
structure DTPart where
  type : String
  value : String

/-- Model of
`const get = (type) => parts.find((p) => p.type === type)?.value;`
(system.service.js line 15). -/
def getPart (parts : List DTPart) (t : String) : Option String :=
  (parts.find? (fun p => p.type == t)).map (fun p => p.value)

/-- Template-literal interpolation of `get(type)`: a found value embeds
as itself, `undefined` embeds as the string `undefined`. -/
def optToStr (o : Option String) : String := o.getD "undefined"

/-- The date string built at system.service.js line 17. -/
def dateOf (parts : List DTPart) : String :=
  optToStr (getPart parts "year") ++ "-" ++ optToStr (getPart parts "month")
    ++ "-" ++ optToStr (getPart parts "day")

/-- The time string built at system.service.js line 18. -/
def timeOf (parts : List DTPart) : String :=
  optToStr (getPart parts "hour") ++ ":" ++ optToStr (getPart parts "minute")
    ++ ":" ++ optToStr (getPart parts "second")

/-- The success payload of `systemDateTime` (system.service.js lines 20-25). -/
def dateTimeData (tz : String) (parts : List DTPart) : JsVal :=
  .vObj [("dateTime", .vStr (dateOf parts ++ "T" ++ timeOf parts)),
    ("date", .vStr (dateOf parts)), ("time", .vStr (timeOf parts)),
    ("timezone", .vStr tz)]

/-- Service function `systemDateTime` (system.service.js lines 3-29).  The
`new Intl.DateTimeFormat("en-CA", \x7b timeZone: tz, ... \x7d)
.formatToParts(now)` pipeline — a platform builtin — is passed in as `fmt`,
returning either the part list or the error value it throws (the constructor
throws a `RangeError` for unknown timezones).  The `try/catch` of the source
becomes the match: the only throwing operation inside the `try` is the
formatter, and its error is routed to `fail`. -/
def systemDateTime (ts : String) (timezone : Option String)
    (fmt : String → Except ErrArg (List DTPart)) : JsVal :=
  let tz := timezone.getD "UTC"
  match fmt tz with
  | .ok parts => ok ts (dateTimeData tz parts) []
  | .error e => fail ts e []

/-- Nullish coalescing `message ?? null` of the optional validated
parameter. -/
def msgVal : Option String → JsVal
  | some m => .vStr m
  | none => .vNull

/-- Service function `systemPing` (system.service.js lines 31-36):
`ok(\x7b pong: true, message: message ?? null \x7d)`. -/
def systemPing (ts : String) (message : Option String) : JsVal :=
  ok ts (.vObj [("pong", .vBool true), ("message", msgVal message)]) []

/-- A success-shaped envelope object as the code actually builds it:
`ok` is `true` and the `error` property holds `undefined`. -/
def isSuccessEnv (env : JsVal) : Prop :=
  envField env "ok" = some (.vBool true) ∧ envField env "error" = some .vUndefined

/-- A failure-shaped envelope object: `ok` is `false`, `data` is `null` and
`error` holds a string. -/
def isFailureEnv (env : JsVal) : Prop :=
  envField env "ok" = some (.vBool false) ∧ envField env "data" = some .vNull
    ∧ ∃ s, envField env "error" = some (.vStr s)

/-- The property names of an object value, in insertion order. -/
def objKeys : JsVal → List String
  | .vObj fs => fs.map Prod.fst
  | _ => []

/-- A string of exactly `n` decimal digits. -/
def digitsN (n : Nat) (s : String) : Bool :=
  s.data.length == n && s.data.all Char.isDigit

/-- The shape `YYYY-MM-DD`. -/
def isDateShape (s : String) : Prop :=
  ∃ y mo d, s = y ++ "-" ++ mo ++ "-" ++ d ∧ digitsN 4 y = true
    ∧ digitsN 2 mo = true ∧ digitsN 2 d = true

/-- The shape `HH:MM:SS`. -/
def isTimeShape (s : String) : Prop :=
  ∃ h mi se, s = h ++ ":" ++ mi ++ ":" ++ se ∧ digitsN 2 h = true
    ∧ digitsN 2 mi = true ∧ digitsN 2 se = true

/-- Occurrence of `sub` as a literal substring of `s`. -/
def containsSub (s sub : String) : Prop :=
  ∃ a b, s = a ++ sub ++ b

mutual

/-- A value that JSON serialization reproduces completely: no `undefined`
and no function values anywhere. -/
def jsonClean : JsVal → Bool
  | .vUndefined => false
  | .vFun => false
  | .vArr xs => jsonCleanItems xs
  | .vObj fs => jsonCleanFields fs
  | _ => true

/-- Cleanliness of the element list of an array. -/
def jsonCleanItems : List JsVal → Bool
  | [] => true
  | v :: rest => jsonClean v && jsonCleanItems rest

/-- Cleanliness of the property list of an object. -/
def jsonCleanFields : List (String × JsVal) → Bool
  | [] => true
  | (_, v) :: rest => jsonClean v && jsonCleanFields rest

end

/-!
## Heap model of JavaScript object graphs

Tree values cannot express the circular structures a JavaScript caller can
pass to `ok`/`fail`.  `GVal`/`GHeap` model object graphs explicitly: objects
live at heap addresses and `gRef` points at them, so a self-referencing
object is expressible.  `gStrVal` models `JSON.stringify(·, null, 2)` on
this graph fragment, including the cycle check of the ECMAScript algorithm
(`SerializeJSONObject` throws a `TypeError` when it meets an object already
on the serialization stack); the `fuel` argument only bounds the recursion
depth of the Lean model and is irrelevant whenever it exceeds the depth the
algorithm actually reaches. -/

/-- Graph-model JavaScript values: primitives, function values, and
references into a heap of objects. -/
inductive GVal where
  | gNull : GVal
  | gUndefined : GVal
  | gBool : Bool → GVal
  | gNum : Int → GVal
  | gStr : String → GVal
  | gFun : GVal
  | gRef : Nat → GVal
deriving Repr, DecidableEq

/-- A heap of JavaScript objects: address to property list. -/
abbrev GHeap := List (Nat × List (String × GVal))

/-- The message of the `TypeError` that `JSON.stringify` throws on a
circular structure. -/
def circularMsg : String :=
  "TypeError: Converting circular structure to JSON"

mutual

/-- Model of `JSON.stringify(v, null, 2)` on the graph fragment: as
`strVal`, but an
object reference already on the serialization `stack` raises the circular
structure `TypeError` (modelled in `Except`). -/
def gStrVal (h : GHeap) : Nat → List Nat → String → GVal →
    Except String (Option String)
  | 0, _, _, _ => .error "model: out of fuel"
  | _ + 1, _, _, .gNull => .ok (some "null")
  | _ + 1, _, _, .gUndefined => .ok none
  | _ + 1, _, _, .gFun => .ok none
  | _ + 1, _, _, .gBool b => .ok (some (if b then "true" else "false"))
  | _ + 1, _, _, .gNum n => .ok (some (toString n))
  | _ + 1, _, _, .gStr s => .ok (some (jsonQuote s))
  | fuel + 1, stack, ind, .gRef a =>
      if a ∈ stack then .error circularMsg
      else
        match h.lookup a with
        | none => .error "model: dangling reference"
        | some fs =>
            match gStrFields h fuel (a :: stack) (ind ++ "  ") fs with
            | .error e => .error e
            | .ok mems =>
                .ok (some (if mems.isEmpty then "\x7b\x7d"
                  else "\x7b\n" ++ ind ++ "  " ++
                    String.intercalate (",\n" ++ ind ++ "  ") mems
                    ++ "\n" ++ ind ++ "\x7d"))

/-- Object members on the graph model, dropping `undefined`-serializing
properties and propagating thrown errors.  Fuel is consumed per member so
that the recursion is structural on it. -/
def gStrFields (h : GHeap) : Nat → List Nat → String →
    List (String × GVal) → Except String (List String)
  | 0, _, _, _ => .error "model: out of fuel"
  | _ + 1, _, _, [] => .ok []
  | fuel + 1, stack, ind, (k, v) :: rest =>
      match gStrVal h fuel stack ind v with
      | .error e => .error e
      | .ok none => gStrFields h fuel stack ind rest
      | .ok (some s) =>
          match gStrFields h fuel stack ind rest with
          | .error e => .error e
          | .ok mems => .ok ((jsonQuote k ++ ": " ++ s) :: mems)

end

/-- The call `ok(data)` on the graph model: the codec serializes the
envelope object
`\x7b ok: true, data, meta: \x7b ts \x7d, error: undefined \x7d` with
`JSON.stringify(·, null, 2)`.  The envelope and meta objects are fresh (not
heap-resident), so their members are laid out directly; `data` is serialized
at their nesting depth with an empty ancestor stack. -/
def gOk (h : GHeap) (ts : String) (fuel : Nat) (data : GVal) :
    Except String String :=
  match gStrVal h fuel [] "  " data with
  | .error e => .error e
  | .ok ds =>
      let dataMem := match ds with
        | some s => ["\"data\": " ++ s]
        | none => []
      .ok ("\x7b\n  " ++
        String.intercalate ",\n  "
          (["\"ok\": true"] ++ dataMem ++
            ["\"meta\": \x7b\n    \"ts\": " ++ jsonQuote ts ++ "\n  \x7d"])
        ++ "\n\x7d")

/-! ## Lemmas about property lookup, assignment and object spread -/

theorem lookup_cons_self (k : String) (v : JsVal)
    (rest : List (String × JsVal)) : ((k, v) :: rest).lookup k = some v := by
  simp [List.lookup]

theorem lookup_cons_ne (k k' : String) (v : JsVal)
    (rest : List (String × JsVal)) (h : k' ≠ k) :
    ((k, v) :: rest).lookup k' = rest.lookup k' := by
  have hb : (k' == k) = false := beq_eq_false_iff_ne.mpr h
  simp [List.lookup, hb]

theorem lookup_map_overwrite_self (k : String) (v : JsVal)
    (o : List (String × JsVal)) (h : o.any (fun p => p.1 == k) = true) :
    (o.map (fun p => if p.1 == k then (k, v) else p)).lookup k = some v := by
  induction o with
  | nil => simp at h
  | cons p rest ih =>
      obtain ⟨k0, v0⟩ := p
      by_cases hk : k0 = k
      · subst hk
        simp only [List.map_cons, beq_self_eq_true, if_pos]
        exact lookup_cons_self _ _ _
      · have hb : (k0 == k) = false := beq_eq_false_iff_ne.mpr hk
        simp only [List.any_cons, hb, Bool.false_or] at h
        simp only [List.map_cons, hb, Bool.false_eq_true, if_false]
        rw [lookup_cons_ne _ _ _ _ (fun hkk => hk hkk.symm)]
        exact ih h

theorem lookup_map_overwrite_ne (k k' : String) (v : JsVal)
    (o : List (String × JsVal)) (h : k' ≠ k) :
    (o.map (fun p => if p.1 == k then (k, v) else p)).lookup k'
      = o.lookup k' := by
  induction o with
  | nil => rfl
  | cons p rest ih =>
      obtain ⟨k0, v0⟩ := p
      by_cases hk : k0 = k
      · subst hk
        simp only [List.map_cons, beq_self_eq_true, if_pos]
        rw [lookup_cons_ne _ _ _ _ h, lookup_cons_ne _ _ _ _ h]
        exact ih
      · have hb : (k0 == k) = false := beq_eq_false_iff_ne.mpr hk
        simp only [List.map_cons, hb, Bool.false_eq_true, if_false]
        by_cases hkk : k' = k0
        · subst hkk
          rw [lookup_cons_self, lookup_cons_self]
        · rw [lookup_cons_ne _ _ _ _ hkk, lookup_cons_ne _ _ _ _ hkk]
          exact ih

theorem lookup_append_single_self (k : String) (v : JsVal)
    (o : List (String × JsVal)) (h : o.lookup k = none) :
    (o ++ [(k, v)]).lookup k = some v := by
  induction o with
  | nil => exact lookup_cons_self _ _ _
  | cons p rest ih =>
      obtain ⟨k0, v0⟩ := p
      by_cases hkk : k = k0
      · subst hkk
        rw [lookup_cons_self] at h
        exact absurd h (by simp)
      · rw [lookup_cons_ne _ _ _ _ hkk] at h
        rw [List.cons_append, lookup_cons_ne _ _ _ _ hkk]
        exact ih h

theorem lookup_append_single_ne (k k' : String) (v : JsVal)
    (o : List (String × JsVal)) (h : k' ≠ k) :
    (o ++ [(k, v)]).lookup k' = o.lookup k' := by
  induction o with
  | nil => rw [List.nil_append, lookup_cons_ne _ _ _ _ h]
  | cons p rest ih =>
      obtain ⟨k0, v0⟩ := p
      by_cases hkk : k' = k0
      · subst hkk
        rw [List.cons_append, lookup_cons_self, lookup_cons_self]
      · rw [List.cons_append, lookup_cons_ne _ _ _ _ hkk,
          lookup_cons_ne _ _ _ _ hkk]
        exact ih

theorem lookup_eq_none_of_any_eq_false (o : List (String × JsVal))
    (k : String) (h : o.any (fun p => p.1 == k) = false) :
    o.lookup k = none := by
  induction o with
  | nil => rfl
  | cons p rest ih =>
      obtain ⟨k0, v0⟩ := p
      simp only [List.any_cons, Bool.or_eq_false_iff] at h
      obtain ⟨h1, h2⟩ := h
      rw [lookup_cons_ne _ _ _ _ (Ne.symm (beq_eq_false_iff_ne.mp h1))]
      exact ih h2

theorem lookup_setProp_self (o : List (String × JsVal)) (k : String)
    (v : JsVal) : (setProp o k v).lookup k = some v := by
  unfold setProp
  by_cases h : o.any (fun p => p.1 == k)
  · rw [if_pos h]
    exact lookup_map_overwrite_self k v o h
  · rw [if_neg h]
    exact lookup_append_single_self k v o
      (lookup_eq_none_of_any_eq_false o k (Bool.eq_false_iff.mpr h))

theorem lookup_setProp_ne (o : List (String × JsVal)) (k k' : String)
    (v : JsVal) (h : k' ≠ k) :
    (setProp o k v).lookup k' = o.lookup k' := by
  unfold setProp
  by_cases hany : o.any (fun p => p.1 == k)
  · rw [if_pos hany]
    exact lookup_map_overwrite_ne k k' v o h
  · rw [if_neg hany]
    exact lookup_append_single_ne k k' v o h

theorem spreadInto_cons (base : List (String × JsVal))
    (p : String × JsVal) (rest : List (String × JsVal)) :
    spreadInto base (p :: rest) = spreadInto (setProp base p.1 p.2) rest :=
  rfl

theorem lookup_spreadInto_of_forall_ne (m : List (String × JsVal))
    (k : String) (h : ∀ p ∈ m, p.1 ≠ k) :
    ∀ base, (spreadInto base m).lookup k = base.lookup k := by
  induction m with
  | nil => intro base; rfl
  | cons p rest ih =>
      intro base
      rw [spreadInto_cons,
        ih (fun q hq => h q (List.mem_cons_of_mem _ hq)),
        lookup_setProp_ne _ _ _ _
          (fun he => (h p (List.mem_cons_self _ _)) he.symm)]

theorem lookup_spreadInto_of_lookup (m : List (String × JsVal))
    (k : String) (v : JsVal) (hnd : (m.map Prod.fst).Nodup)
    (h : m.lookup k = some v) :
    ∀ base, (spreadInto base m).lookup k = some v := by
  induction m with
  | nil => simp [List.lookup] at h
  | cons p rest ih =>
      intro base
      obtain ⟨k0, v0⟩ := p
      simp only [List.map_cons, List.nodup_cons] at hnd
      obtain ⟨hk0, hndrest⟩ := hnd
      by_cases hkk : k = k0
      · subst hkk
        rw [lookup_cons_self] at h
        have hrest : ∀ q ∈ rest, q.1 ≠ k := by
          intro q hq he
          exact hk0 (by rw [← he]; exact List.mem_map_of_mem _ hq)
        rw [spreadInto_cons]
        rw [lookup_spreadInto_of_forall_ne rest k hrest]
        rw [lookup_setProp_self]
        exact h
      · rw [lookup_cons_ne _ _ _ _ hkk] at h
        rw [spreadInto_cons]
        exact ih hndrest h _

theorem forall_ne_of_lookup_eq_none (m : List (String × JsVal))
    (k : String) (h : m.lookup k = none) : ∀ p ∈ m, p.1 ≠ k := by
  induction m with
  | nil => intro p hp; cases hp
  | cons q rest ih =>
      obtain ⟨k0, v0⟩ := q
      intro p hp
      by_cases hkk : k = k0
      · subst hkk
        rw [lookup_cons_self] at h
        exact absurd h (by simp)
      · rw [lookup_cons_ne _ _ _ _ hkk] at h
        cases hp with
        | head => exact fun he => hkk he.symm
        | tail _ hp => exact ih h p hp


theorem cleanse_obj (fs : List (String × JsVal)) :
    cleanse (.vObj fs) = .vObj (cleanseFields fs) := by simp [cleanse]

theorem cleanse_arr (xs : List JsVal) :
    cleanse (.vArr xs) = .vArr (cleanseItems xs) := by simp [cleanse]

theorem strVal_none_of_droppable (ind : String) (v : JsVal)
    (h : isDroppable v = true) : strVal ind v = none := by
  cases v <;> simp_all [isDroppable, strVal]

theorem strVal_obj_isSome (ind : String) (fs : List (String × JsVal)) :
    ∃ s, strVal ind (.vObj fs) = some s := ⟨_, rfl⟩

mutual

theorem strVal_cleanse (ind : String) (v : JsVal) :
    strVal ind (cleanse v) = strVal ind v := by
  cases v with
  | vObj fs =>
      rw [cleanse_obj]
      show strVal ind (.vObj (cleanseFields fs)) = strVal ind (.vObj fs)
      simp only [strVal]
      rw [strFields_cleanse (ind ++ "  ") fs]
  | vArr xs =>
      rw [cleanse_arr]
      simp only [strVal]
      rw [strItems_cleanse (ind ++ "  ") xs]
  | vNull => simp [cleanse]
  | vUndefined => simp [cleanse]
  | vBool b => simp [cleanse]
  | vNum n => simp [cleanse]
  | vStr s => simp [cleanse]
  | vFun => simp [cleanse]

theorem strFields_cleanse (ind : String) (fs : List (String × JsVal)) :
    strFields ind (cleanseFields fs) = strFields ind fs := by
  cases fs with
  | nil => simp [cleanseFields]
  | cons p rest =>
      obtain ⟨k, v⟩ := p
      by_cases hd : isDroppable v = true
      · simp only [cleanseFields, hd, if_true]
        rw [strFields_cleanse ind rest]
        simp only [strFields, strVal_none_of_droppable ind v hd]
      · simp only [cleanseFields, hd, if_false]
        simp only [strFields]
        rw [strVal_cleanse ind v, strFields_cleanse ind rest]

theorem strItems_cleanse (ind : String) (xs : List JsVal) :
    strItems ind (cleanseItems xs) = strItems ind xs := by
  cases xs with
  | nil => simp [cleanseItems]
  | cons v rest =>
      by_cases hd : isDroppable v = true
      · simp only [cleanseItems, hd, if_true]
        simp only [strItems]
        rw [strItems_cleanse ind rest, strVal_none_of_droppable ind v hd]
        rfl
      · simp only [cleanseItems, hd, Bool.false_eq_true, if_false]
        simp only [strItems]
        rw [strVal_cleanse ind v, strItems_cleanse ind rest]

end

theorem isDroppable_eq_false_of_clean (v : JsVal) (h : jsonClean v = true) :
    isDroppable v = false := by
  cases v <;> simp_all [jsonClean, isDroppable]

mutual

theorem cleanse_eq_self_of_clean (v : JsVal) (h : jsonClean v = true) :
    cleanse v = v := by
  cases v with
  | vObj fs =>
      rw [cleanse_obj,
        cleanseFields_eq_self_of_clean fs (by simpa [jsonClean] using h)]
  | vArr xs =>
      rw [cleanse_arr,
        cleanseItems_eq_self_of_clean xs (by simpa [jsonClean] using h)]
  | vNull => simp [cleanse]
  | vUndefined => simp [jsonClean] at h
  | vBool b => simp [cleanse]
  | vNum n => simp [cleanse]
  | vStr s => simp [cleanse]
  | vFun => simp [jsonClean] at h

theorem cleanseFields_eq_self_of_clean (fs : List (String × JsVal))
    (h : jsonCleanFields fs = true) : cleanseFields fs = fs := by
  cases fs with
  | nil => simp [cleanseFields]
  | cons p rest =>
      obtain ⟨k, v⟩ := p
      simp only [jsonCleanFields, Bool.and_eq_true] at h
      obtain ⟨h1, h2⟩ := h
      simp only [cleanseFields, isDroppable_eq_false_of_clean v h1,
        Bool.false_eq_true, if_false]
      rw [cleanse_eq_self_of_clean v h1, cleanseFields_eq_self_of_clean rest h2]

theorem cleanseItems_eq_self_of_clean (xs : List JsVal)
    (h : jsonCleanItems xs = true) : cleanseItems xs = xs := by
  cases xs with
  | nil => simp [cleanseItems]
  | cons v rest =>
      simp only [jsonCleanItems, Bool.and_eq_true] at h
      obtain ⟨h1, h2⟩ := h
      simp only [cleanseItems, isDroppable_eq_false_of_clean v h1,
        Bool.false_eq_true, if_false]
      rw [cleanse_eq_self_of_clean v h1, cleanseItems_eq_self_of_clean rest h2]

end

theorem jsonCleanFields_append (a b : List (String × JsVal))
    (ha : jsonCleanFields a = true) (hb : jsonCleanFields b = true) :
    jsonCleanFields (a ++ b) = true := by
  induction a with
  | nil => simpa using hb
  | cons p rest ih =>
      obtain ⟨k, v⟩ := p
      simp only [jsonCleanFields, Bool.and_eq_true] at ha ⊢
      exact ⟨ha.1, ih ha.2⟩

theorem jsonCleanFields_setProp (o : List (String × JsVal)) (k : String)
    (v : JsVal) (ho : jsonCleanFields o = true) (hv : jsonClean v = true) :
    jsonCleanFields (setProp o k v) = true := by
  unfold setProp
  by_cases h : o.any (fun p => p.1 == k)
  · rw [if_pos h]
    clear h
    induction o with
    | nil => simp [jsonCleanFields]
    | cons p rest ih =>
        obtain ⟨k0, v0⟩ := p
        simp only [jsonCleanFields, Bool.and_eq_true] at ho
        by_cases hk : k0 = k
        · subst hk
          simp only [List.map_cons, beq_self_eq_true, if_pos]
          simp only [jsonCleanFields, Bool.and_eq_true]
          exact ⟨hv, ih ho.2⟩
        · have hb : (k0 == k) = false := beq_eq_false_iff_ne.mpr hk
          simp only [List.map_cons, hb, Bool.false_eq_true, if_false]
          simp only [jsonCleanFields, Bool.and_eq_true]
          exact ⟨ho.1, ih ho.2⟩
  · rw [if_neg h]
    exact jsonCleanFields_append o [(k, v)] ho
      (by simp [jsonCleanFields, hv])

theorem jsonCleanFields_spreadInto (m : List (String × JsVal))
    (hm : jsonCleanFields m = true) :
    ∀ base, jsonCleanFields base = true →
      jsonCleanFields (spreadInto base m) = true := by
  induction m with
  | nil => intro base hb; exact hb
  | cons p rest ih =>
      intro base hb
      obtain ⟨k, v⟩ := p
      simp only [jsonCleanFields, Bool.and_eq_true] at hm
      rw [spreadInto_cons]
      exact ih hm.2 _ (jsonCleanFields_setProp base k v hb hm.1)

/-! ## Response-shape helper lemmas -/

theorem mcpResponse_of_stringify (env : JsVal) (s : String)
    (h : jsonStringify2 env = some s) :
    mcpResponse env = .vObj [("content", .vArr [.vObj
      [("type", .vStr "text"), ("text", .vStr s)]])] := by
  unfold mcpResponse
  rw [h]
  rfl

theorem jsonStringify2_envTree_isSome (ts : String) (o : Bool) (data : JsVal)
    (meta : List (String × JsVal)) (e : JsVal) :
    ∃ s, jsonStringify2 (envTree ts o data meta e) = some s :=
  strVal_obj_isSome "" _

/-! ## Claims -/

/-- C1 (counterexample): the success envelope built by `ok` does not carry
`error: null` — the `error` property holds `undefined`, and the serialized
JSON object carries no `error` key at all. -/
theorem c1_ok_error_key_not_null :
    ok "2025-01-01T00:00:00.000Z" .vNull []
      = mcpResponse (okEnvelopeTree "2025-01-01T00:00:00.000Z" .vNull [])
    ∧ envField (okEnvelopeTree "2025-01-01T00:00:00.000Z" .vNull []) "error"
        = some .vUndefined
    ∧ envField (okEnvelopeTree "2025-01-01T00:00:00.000Z" .vNull []) "error"
        ≠ some .vNull
    ∧ jsonStringify2 (okEnvelopeTree "2025-01-01T00:00:00.000Z" .vNull [])
        = some ("\x7b\n  \"ok\": true,\n  \"data\": null,\n  \"meta\": \x7b\n    \"ts\": \"2025-01-01T00:00:00.000Z\"\n  \x7d\n\x7d") := by
  refine ⟨rfl, rfl, ?_, rfl⟩
  intro h
  have h0 : envField (okEnvelopeTree "2025-01-01T00:00:00.000Z" .vNull [])
      "error" = some .vUndefined := rfl
  rw [h0] at h
  simp at h

/-- C1 (amended): exactly one of the two envelope forms holds for every
produced envelope: `ok` yields `ok=true` with the `error` property
`undefined` (dropped by serialization), `fail` yields `ok=false`,
`data=null` and a string `error`. -/
theorem c1_envelope_invariant (ts : String) (data : JsVal)
    (meta : List (String × JsVal)) (e : ErrArg) :
    (isSuccessEnv (okEnvelopeTree ts data meta)
      ∧ ¬ isFailureEnv (okEnvelopeTree ts data meta))
    ∧ (isFailureEnv (failEnvelopeTree ts e meta)
      ∧ ¬ isSuccessEnv (failEnvelopeTree ts e meta)) := by
  refine ⟨⟨⟨rfl, rfl⟩, ?_⟩, ⟨⟨rfl, rfl, ⟨errToMessage e, rfl⟩⟩, ?_⟩⟩
  · rintro ⟨hok, -⟩
    have h0 : envField (okEnvelopeTree ts data meta) "ok"
        = some (.vBool true) := rfl
    rw [h0] at hok
    simp at hok
  · rintro ⟨-, herr⟩
    have h0 : envField (failEnvelopeTree ts e meta) "error"
        = some (.vStr (errToMessage e)) := rfl
    rw [h0] at herr
    simp at herr

/-- C2: the envelope meta is the generated timestamp overlaid with the
keys of the caller: a caller-supplied `ts` wins, otherwise the generated `ts` is
present and every caller key is preserved unchanged. -/
theorem c2_meta_timestamp_overlay (ts : String) (m : List (String × JsVal))
    (hnd : (m.map Prod.fst).Nodup) :
    (∀ v, m.lookup "ts" = some v → (mkMeta ts m).lookup "ts" = some v)
    ∧ (m.lookup "ts" = none →
        (mkMeta ts m).lookup "ts" = some (.vStr ts)
        ∧ ∀ k v, m.lookup k = some v → (mkMeta ts m).lookup k = some v) := by
  constructor
  · intro v hv
    exact lookup_spreadInto_of_lookup m "ts" v hnd hv _
  · intro hnone
    constructor
    · rw [mkMeta, lookup_spreadInto_of_forall_ne m "ts"
        (forall_ne_of_lookup_eq_none m "ts" hnone)]
      exact lookup_cons_self _ _ _
    · intro k v hv
      exact lookup_spreadInto_of_lookup m k v hnd hv _

/-- C2 (witness): concrete check — a caller `ts` overrides the generated
timestamp, and without one the generated timestamp appears next to the
keys of the caller. -/
theorem c2_meta_timestamp_overlay_witness :
    (mkMeta "2025-01-01T00:00:00.000Z"
        [("requestId", .vStr "r1"), ("ts", .vStr "caller-ts")]).lookup "ts"
      = some (.vStr "caller-ts")
    ∧ (mkMeta "2025-01-01T00:00:00.000Z"
        [("requestId", .vStr "r1")]).lookup "ts"
      = some (.vStr "2025-01-01T00:00:00.000Z")
    ∧ (mkMeta "2025-01-01T00:00:00.000Z"
        [("requestId", .vStr "r1")]).lookup "requestId"
      = some (.vStr "r1") :=
  ⟨(c2_meta_timestamp_overlay "2025-01-01T00:00:00.000Z"
      [("requestId", .vStr "r1"), ("ts", .vStr "caller-ts")]
      (by decide)).1 _ rfl,
   ((c2_meta_timestamp_overlay "2025-01-01T00:00:00.000Z"
      [("requestId", .vStr "r1")] (by decide)).2 rfl).1,
   ((c2_meta_timestamp_overlay "2025-01-01T00:00:00.000Z"
      [("requestId", .vStr "r1")] (by decide)).2 rfl).2 "requestId" _ rfl⟩

/-- C4 (counterexample): the `error` field of the ping success envelope is
`undefined`, not `null`. -/
theorem c4_ping_error_not_null :
    systemPing "2025-01-01T00:00:00.000Z" (some "hi")
      = mcpResponse (okEnvelopeTree "2025-01-01T00:00:00.000Z"
          (.vObj [("pong", .vBool true), ("message", .vStr "hi")]) [])
    ∧ envField (okEnvelopeTree "2025-01-01T00:00:00.000Z"
        (.vObj [("pong", .vBool true), ("message", .vStr "hi")]) []) "error"
      ≠ some .vNull := by
  refine ⟨rfl, ?_⟩
  intro h
  have h0 : envField (okEnvelopeTree "2025-01-01T00:00:00.000Z"
      (.vObj [("pong", .vBool true), ("message", .vStr "hi")]) []) "error"
      = some .vUndefined := rfl
  rw [h0] at h
  simp at h

/-- C4 (amended): `systemPing` returns a success envelope with `ok=true`
whose data is exactly `\x7b pong: true, message: m-or-null \x7d`; the `error`
field is `undefined` (absent from the serialized JSON), not `null`. -/
theorem c4_ping_shape (ts : String) (message : Option String) :
    systemPing ts message = mcpResponse (okEnvelopeTree ts
        (.vObj [("pong", .vBool true), ("message", msgVal message)]) [])
    ∧ envField (okEnvelopeTree ts
        (.vObj [("pong", .vBool true), ("message", msgVal message)]) []) "ok"
      = some (.vBool true)
    ∧ envField (okEnvelopeTree ts
        (.vObj [("pong", .vBool true), ("message", msgVal message)]) []) "data"
      = some (.vObj [("pong", .vBool true), ("message", msgVal message)])
    ∧ envField (okEnvelopeTree ts
        (.vObj [("pong", .vBool true), ("message", msgVal message)]) [])
        "error" = some .vUndefined
    ∧ msgVal (some "hi") = .vStr "hi" ∧ msgVal none = .vNull :=
  ⟨rfl, rfl, rfl, rfl, rfl, rfl⟩

/-- C6: `fail` returns `ok=false`, `data=null`, and an `error` string that is
the `.message` of an `Error` instance and the `String(...)` coercion of any
other value. -/
theorem c6_fail_message_extraction (ts : String)
    (m : List (String × JsVal)) :
    (∀ e : ErrArg,
      fail ts e m = mcpResponse (failEnvelopeTree ts e m)
      ∧ envField (failEnvelopeTree ts e m) "ok" = some (.vBool false)
      ∧ envField (failEnvelopeTree ts e m) "data" = some .vNull
      ∧ envField (failEnvelopeTree ts e m) "error"
          = some (.vStr (errToMessage e)))
    ∧ (∀ msg, errToMessage (.errObj msg) = msg)
    ∧ (∀ v, errToMessage (.plain v) = jsToString v) :=
  ⟨fun _ => ⟨rfl, rfl, rfl, rfl⟩, fun _ => rfl, fun _ => rfl⟩

/-- C9: every value `ok` and `fail` return is an MCP response
`\x7b content: [\x7b type: "text", text: <serialized envelope> \x7d] \x7d`
with exactly one content item whose text is the pretty-printed JSON
serialization of the envelope — never the raw envelope object. -/
theorem c9_mcp_response_shape (ts : String) (data : JsVal)
    (m : List (String × JsVal)) (e : ErrArg) :
    (∃ s, ok ts data m = .vObj [("content", .vArr [.vObj
        [("type", .vStr "text"), ("text", .vStr s)]])]
      ∧ jsonStringify2 (okEnvelopeTree ts data m) = some s)
    ∧ (∃ s, fail ts e m = .vObj [("content", .vArr [.vObj
        [("type", .vStr "text"), ("text", .vStr s)]])]
      ∧ jsonStringify2 (failEnvelopeTree ts e m) = some s) := by
  constructor
  · obtain ⟨s, hs⟩ := jsonStringify2_envTree_isSome ts true data m .vUndefined
    exact ⟨s, mcpResponse_of_stringify _ s hs, hs⟩
  · obtain ⟨s, hs⟩ := jsonStringify2_envTree_isSome ts false .vNull m
      (.vStr (errToMessage e))
    exact ⟨s, mcpResponse_of_stringify _ s hs, hs⟩

/-- C3: when the date-time formatter rejects the timezone (throws), the
error is caught and converted into a failure envelope — `systemDateTime`
returns a failure MCP response with `ok=false`, `data=null` and a non-null
string message, never an uncaught exception (it is a total function into
responses). -/
theorem c3_datetime_error_wrapped (ts : String) (timezone : Option String)
    (fmt : String → Except ErrArg (List DTPart)) (e : ErrArg)
    (hfmt : fmt (timezone.getD "UTC") = .error e) :
    systemDateTime ts timezone fmt = fail ts e []
    ∧ isFailureEnv (failEnvelopeTree ts e [])
    ∧ envField (failEnvelopeTree ts e [])
        "error" = some (.vStr (errToMessage e)) := by
  refine ⟨?_, ⟨rfl, rfl, ⟨errToMessage e, rfl⟩⟩, rfl⟩
  simp only [systemDateTime, hfmt]

/-- C3 (witness): concrete invalid-timezone run, with the formatter throwing
the RangeError message V8 produces for `Not/AZone`. -/
theorem c3_datetime_error_wrapped_witness :
    systemDateTime "2025-01-01T00:00:00.000Z" (some "Not/AZone")
        (fun _ => .error (.errObj "Invalid time zone specified: Not/AZone"))
      = fail "2025-01-01T00:00:00.000Z"
          (.errObj "Invalid time zone specified: Not/AZone") []
    ∧ isFailureEnv (failEnvelopeTree "2025-01-01T00:00:00.000Z"
        (.errObj "Invalid time zone specified: Not/AZone") [])
    ∧ envField (failEnvelopeTree "2025-01-01T00:00:00.000Z"
        (.errObj "Invalid time zone specified: Not/AZone") []) "error"
      = some (.vStr (errToMessage
          (.errObj "Invalid time zone specified: Not/AZone"))) :=
  c3_datetime_error_wrapped "2025-01-01T00:00:00.000Z" (some "Not/AZone")
    (fun _ => .error (.errObj "Invalid time zone specified: Not/AZone"))
    (.errObj "Invalid time zone specified: Not/AZone") rfl

/-- C5: on an accepted timezone (defaulting to UTC) whose formatter output
carries digit-shaped year/month/day/hour/minute/second parts,
`systemDateTime` returns a success envelope whose data has exactly the
fields dateTime, date, time, timezone, with date shaped `YYYY-MM-DD`, time
shaped `HH:MM:SS`, dateTime the two joined by `"T"`, and timezone the
resolved input timezone. -/
theorem c5_datetime_success_shape (ts : String) (timezone : Option String)
    (fmt : String → Except ErrArg (List DTPart)) (parts : List DTPart)
    (y mo d h mi se : String)
    (hfmt : fmt (timezone.getD "UTC") = .ok parts)
    (hy : getPart parts "year" = some y) (hy4 : digitsN 4 y = true)
    (hmo : getPart parts "month" = some mo) (hmo2 : digitsN 2 mo = true)
    (hd : getPart parts "day" = some d) (hd2 : digitsN 2 d = true)
    (hh : getPart parts "hour" = some h) (hh2 : digitsN 2 h = true)
    (hmi : getPart parts "minute" = some mi) (hmi2 : digitsN 2 mi = true)
    (hse : getPart parts "second" = some se) (hse2 : digitsN 2 se = true) :
    systemDateTime ts timezone fmt
      = ok ts (dateTimeData (timezone.getD "UTC") parts) []
    ∧ objKeys (dateTimeData (timezone.getD "UTC") parts)
        = ["dateTime", "date", "time", "timezone"]
    ∧ envField (dateTimeData (timezone.getD "UTC") parts) "dateTime"
        = some (.vStr (dateOf parts ++ "T" ++ timeOf parts))
    ∧ envField (dateTimeData (timezone.getD "UTC") parts) "date"
        = some (.vStr (dateOf parts))
    ∧ envField (dateTimeData (timezone.getD "UTC") parts) "time"
        = some (.vStr (timeOf parts))
    ∧ envField (dateTimeData (timezone.getD "UTC") parts) "timezone"
        = some (.vStr (timezone.getD "UTC"))
    ∧ isDateShape (dateOf parts) ∧ isTimeShape (timeOf parts)
    ∧ isSuccessEnv (okEnvelopeTree ts
        (dateTimeData (timezone.getD "UTC") parts) []) := by
  refine ⟨?_, rfl, rfl, rfl, rfl, rfl, ?_, ?_, ⟨rfl, rfl⟩⟩
  · simp only [systemDateTime, hfmt]
  · refine ⟨y, mo, d, ?_, hy4, hmo2, hd2⟩
    rw [dateOf, hy, hmo, hd]
    rfl
  · refine ⟨h, mi, se, ?_, hh2, hmi2, hse2⟩
    rw [timeOf, hh, hmi, hse]
    rfl

/-- C5 (witness): a concrete UTC run with an en-CA-shaped part list. -/
theorem c5_datetime_success_shape_witness :
    systemDateTime "2025-10-11T09:00:00.000Z" (some "UTC")
        (fun _ => .ok
          [⟨"year", "2025"⟩, ⟨"literal", "-"⟩, ⟨"month", "10"⟩,
            ⟨"literal", "-"⟩, ⟨"day", "11"⟩, ⟨"literal", ", "⟩,
            ⟨"hour", "09"⟩, ⟨"literal", ":"⟩, ⟨"minute", "00"⟩,
            ⟨"literal", ":"⟩, ⟨"second", "00"⟩])
      = ok "2025-10-11T09:00:00.000Z"
          (dateTimeData "UTC"
            [⟨"year", "2025"⟩, ⟨"literal", "-"⟩, ⟨"month", "10"⟩,
              ⟨"literal", "-"⟩, ⟨"day", "11"⟩, ⟨"literal", ", "⟩,
              ⟨"hour", "09"⟩, ⟨"literal", ":"⟩, ⟨"minute", "00"⟩,
              ⟨"literal", ":"⟩, ⟨"second", "00"⟩]) []
    ∧ isDateShape (dateOf
        [⟨"year", "2025"⟩, ⟨"literal", "-"⟩, ⟨"month", "10"⟩,
          ⟨"literal", "-"⟩, ⟨"day", "11"⟩, ⟨"literal", ", "⟩,
          ⟨"hour", "09"⟩, ⟨"literal", ":"⟩, ⟨"minute", "00"⟩,
          ⟨"literal", ":"⟩, ⟨"second", "00"⟩])
    ∧ isTimeShape (timeOf
        [⟨"year", "2025"⟩, ⟨"literal", "-"⟩, ⟨"month", "10"⟩,
          ⟨"literal", "-"⟩, ⟨"day", "11"⟩, ⟨"literal", ", "⟩,
          ⟨"hour", "09"⟩, ⟨"literal", ":"⟩, ⟨"minute", "00"⟩,
          ⟨"literal", ":"⟩, ⟨"second", "00"⟩]) := by
  obtain ⟨h1, -, -, -, -, -, h7, h8, -⟩ :=
    c5_datetime_success_shape "2025-10-11T09:00:00.000Z" (some "UTC")
      (fun _ => .ok
        [⟨"year", "2025"⟩, ⟨"literal", "-"⟩, ⟨"month", "10"⟩,
          ⟨"literal", "-"⟩, ⟨"day", "11"⟩, ⟨"literal", ", "⟩,
          ⟨"hour", "09"⟩, ⟨"literal", ":"⟩, ⟨"minute", "00"⟩,
          ⟨"literal", ":"⟩, ⟨"second", "00"⟩])
      _ "2025" "10" "11" "09" "00" "00" rfl rfl rfl rfl rfl rfl rfl
      rfl rfl rfl rfl rfl rfl
  exact ⟨h1, h7, h8⟩

/-- C10: if the formatter part list lacks one of the six component types,
`systemDateTime` still returns a success envelope and the built date or time
string contains the literal substring `undefined`. -/
theorem c10_missing_part_undefined (ts : String) (timezone : Option String)
    (fmt : String → Except ErrArg (List DTPart)) (parts : List DTPart)
    (t : String)
    (hfmt : fmt (timezone.getD "UTC") = .ok parts)
    (ht : t ∈ ["year", "month", "day", "hour", "minute", "second"])
    (hmiss : getPart parts t = none) :
    systemDateTime ts timezone fmt
      = ok ts (dateTimeData (timezone.getD "UTC") parts) []
    ∧ isSuccessEnv (okEnvelopeTree ts
        (dateTimeData (timezone.getD "UTC") parts) [])
    ∧ (containsSub (dateOf parts) "undefined"
        ∨ containsSub (timeOf parts) "undefined") := by
  refine ⟨by simp only [systemDateTime, hfmt], ⟨rfl, rfl⟩, ?_⟩
  simp only [List.mem_cons, List.not_mem_nil, or_false] at ht
  rcases ht with rfl | rfl | rfl | rfl | rfl | rfl
  · refine Or.inl ⟨"", "-" ++ optToStr (getPart parts "month") ++ "-"
      ++ optToStr (getPart parts "day"), ?_⟩
    rw [dateOf, hmiss]
    simp [optToStr, ← String.append_assoc]
  · refine Or.inl ⟨optToStr (getPart parts "year") ++ "-",
      "-" ++ optToStr (getPart parts "day"), ?_⟩
    rw [dateOf, hmiss]
    simp [optToStr, ← String.append_assoc]
  · refine Or.inl ⟨optToStr (getPart parts "year") ++ "-"
      ++ optToStr (getPart parts "month") ++ "-", "", ?_⟩
    rw [dateOf, hmiss]
    simp [optToStr, ← String.append_assoc]
  · refine Or.inr ⟨"", ":" ++ optToStr (getPart parts "minute") ++ ":"
      ++ optToStr (getPart parts "second"), ?_⟩
    rw [timeOf, hmiss]
    simp [optToStr, ← String.append_assoc]
  · refine Or.inr ⟨optToStr (getPart parts "hour") ++ ":",
      ":" ++ optToStr (getPart parts "second"), ?_⟩
    rw [timeOf, hmiss]
    simp [optToStr, ← String.append_assoc]
  · refine Or.inr ⟨optToStr (getPart parts "hour") ++ ":"
      ++ optToStr (getPart parts "minute") ++ ":", "", ?_⟩
    rw [timeOf, hmiss]
    simp [optToStr, ← String.append_assoc]

/-- C10 (witness): a part list missing the `second` part still yields a
success response whose time string embeds `undefined`. -/
theorem c10_missing_part_undefined_witness :
    systemDateTime "2025-10-11T09:00:00.000Z" none
        (fun _ => .ok
          [⟨"year", "2025"⟩, ⟨"month", "10"⟩, ⟨"day", "11"⟩,
            ⟨"hour", "09"⟩, ⟨"minute", "00"⟩])
      = ok "2025-10-11T09:00:00.000Z"
          (dateTimeData "UTC"
            [⟨"year", "2025"⟩, ⟨"month", "10"⟩, ⟨"day", "11"⟩,
              ⟨"hour", "09"⟩, ⟨"minute", "00"⟩]) []
    ∧ (containsSub (dateOf
          [⟨"year", "2025"⟩, ⟨"month", "10"⟩, ⟨"day", "11"⟩,
            ⟨"hour", "09"⟩, ⟨"minute", "00"⟩]) "undefined"
        ∨ containsSub (timeOf
          [⟨"year", "2025"⟩, ⟨"month", "10"⟩, ⟨"day", "11"⟩,
            ⟨"hour", "09"⟩, ⟨"minute", "00"⟩]) "undefined") := by
  obtain ⟨h1, -, h3⟩ :=
    c10_missing_part_undefined "2025-10-11T09:00:00.000Z" none
      (fun _ => .ok
        [⟨"year", "2025"⟩, ⟨"month", "10"⟩, ⟨"day", "11"⟩,
          ⟨"hour", "09"⟩, ⟨"minute", "00"⟩])
      _ "second" rfl (by simp) rfl
  exact ⟨h1, h3⟩

/-- C7 (counterexample): wrapping itself can throw.  On the heap holding the
self-referential object `a` (`a.self === a`), `ok(a)` raises the
circular-structure `TypeError` from `JSON.stringify` instead of returning a
response; the same call on an acyclic heap returns normally, so the fuel
bound is not at fault. -/
theorem c7_circular_data_throws :
    gOk [(0, [("self", GVal.gRef 0)])] "2025-01-01T00:00:00.000Z" 1000
        (.gRef 0) = .error circularMsg
    ∧ gOk [(0, [("x", GVal.gNum 1)])] "2025-01-01T00:00:00.000Z" 1000
        (.gRef 0)
      = .ok ("\x7b\n  \"ok\": true,\n  \"data\": \x7b\n    \"x\": 1\n  \x7d,\n  \"meta\": \x7b\n    \"ts\": \"2025-01-01T00:00:00.000Z\"\n  \x7d\n\x7d") :=
  ⟨rfl, rfl⟩

/-- C7 (amended): on non-circular values — including `undefined` and
function values, which the serializer drops or nulls — `ok` and `fail`
terminate normally with an MCP response whose `text` is a string, and the
returned response is itself JSON-clean (serializable as-is); on circular
data structures, wrapping throws the `JSON.stringify` `TypeError`. -/
theorem c7_wrap_never_throws_on_trees (ts : String) (data : JsVal)
    (m : List (String × JsVal)) (e : ErrArg) :
    (∃ s, ok ts data m = .vObj [("content", .vArr [.vObj
        [("type", .vStr "text"), ("text", .vStr s)]])]
      ∧ jsonClean (ok ts data m) = true)
    ∧ (∃ s, fail ts e m = .vObj [("content", .vArr [.vObj
        [("type", .vStr "text"), ("text", .vStr s)]])]
      ∧ jsonClean (fail ts e m) = true) := by
  obtain ⟨s1, hs1⟩ := jsonStringify2_envTree_isSome ts true data m .vUndefined
  obtain ⟨s2, hs2⟩ :=
    jsonStringify2_envTree_isSome ts false .vNull m (.vStr (errToMessage e))
  have hok : ok ts data m = .vObj [("content", .vArr [.vObj
      [("type", .vStr "text"), ("text", .vStr s1)]])] :=
    mcpResponse_of_stringify _ s1 hs1
  have hfail : fail ts e m = .vObj [("content", .vArr [.vObj
      [("type", .vStr "text"), ("text", .vStr s2)]])] :=
    mcpResponse_of_stringify _ s2 hs2
  refine ⟨⟨s1, hok, ?_⟩, ⟨s2, hfail, ?_⟩⟩
  · rw [hok]
    simp [jsonClean, jsonCleanFields, jsonCleanItems]
  · rw [hfail]
    simp [jsonClean, jsonCleanFields, jsonCleanItems]

/-- C8 (counterexample): serialization of produced envelopes is lossy: the
success envelope carries `undefined` in its `error` key and undefined-valued keys
inside `data` are dropped, so two distinct envelopes produced by `ok`
serialize to the same JSON text, and no parse function can recover every
produced envelope from its serialization. -/
theorem c8_roundtrip_impossible :
    okEnvelopeTree "T0" (.vObj [("a", .vUndefined)]) []
      ≠ okEnvelopeTree "T0" (.vObj []) []
    ∧ jsonStringify2 (okEnvelopeTree "T0" (.vObj [("a", .vUndefined)]) [])
      = jsonStringify2 (okEnvelopeTree "T0" (.vObj []) [])
    ∧ ¬ ∃ parse : String → Option JsVal,
        ∀ d : JsVal,
          parse ((jsonStringify2 (okEnvelopeTree "T0" d [])).getD "")
            = some (okEnvelopeTree "T0" d []) := by
  have hne : okEnvelopeTree "T0" (.vObj [("a", .vUndefined)]) []
      ≠ okEnvelopeTree "T0" (.vObj []) [] := by
    intro h
    simp [okEnvelopeTree, envTree] at h
  refine ⟨hne, rfl, ?_⟩
  rintro ⟨p, hp⟩
  have h12 : some (okEnvelopeTree "T0" (.vObj [("a", .vUndefined)]) [])
      = some (okEnvelopeTree "T0" (.vObj []) []) :=
    (hp (.vObj [("a", .vUndefined)])).symm.trans (hp (.vObj []))
  exact hne (Option.some.inj h12)

/-- C8 (amended): serialization loses exactly the dropped keys: every value
serializes identically to its cleansing (object properties whose value is
`undefined` or a function removed, such array elements nulled), so the JSON
text determines at most the cleansed envelope; a `fail` envelope whose
caller meta is JSON-clean is fixed by cleansing, so nothing of it is
lost. -/
theorem c8_serialization_loses_only_dropped_keys :
    (∀ ind v, strVal ind (cleanse v) = strVal ind v)
    ∧ ∀ ts e m, jsonCleanFields m = true →
        cleanse (failEnvelopeTree ts e m) = failEnvelopeTree ts e m := by
  refine ⟨fun ind v => strVal_cleanse ind v, ?_⟩
  intro ts e m hm
  have hmeta : jsonCleanFields (mkMeta ts m) = true :=
    jsonCleanFields_spreadInto m hm _ (by simp [jsonCleanFields, jsonClean])
  have hfix : cleanseFields (mkMeta ts m) = mkMeta ts m :=
    cleanseFields_eq_self_of_clean _ hmeta
  rw [show failEnvelopeTree ts e m = JsVal.vObj [("ok", .vBool false),
    ("data", .vNull), ("meta", .vObj (mkMeta ts m)),
    ("error", .vStr (errToMessage e))] from rfl]
  rw [cleanse_obj]
  simp [cleanseFields, isDroppable, cleanse, hfix]

/-- C8 (amended, witness): concrete check of both parts. -/
theorem c8_serialization_loses_only_dropped_keys_witness :
    strVal "" (cleanse (.vObj [("a", .vUndefined), ("b", .vNum 2)]))
      = strVal "" (.vObj [("a", .vUndefined), ("b", .vNum 2)])
    ∧ cleanse (failEnvelopeTree "T0" (.errObj "boom") [("k", .vStr "v")])
      = failEnvelopeTree "T0" (.errObj "boom") [("k", .vStr "v")] :=
  ⟨c8_serialization_loses_only_dropped_keys.1 ""
      (.vObj [("a", .vUndefined), ("b", .vNum 2)]),
   c8_serialization_loses_only_dropped_keys.2 "T0" (.errObj "boom")
      [("k", .vStr "v")] (by simp [jsonCleanFields, jsonClean])⟩

end Preflight
